import Mathlib

/-!
Verification development for `amset/scattering/elastic.py`.

The Python module defines three elastic electron-scattering mechanisms
(acoustic deformation potential "ADP", ionized impurity "IMP",
piezoelectric "PIE") over a shared abstract base class, plus the helper
`calculate_inverse_screening_length_sq`.  This file gives a shallow
embedding of that module: numpy arrays become an `NDArray` model carrying
a shape and an index function over rationals, the material-property dict
becomes a partial map from keys to values, Python exceptions become an
`Except` error type, and the physical constants imported from external
modules (`amset.constants`, `BoltzTraP2.units`, `scipy.constants`) become
an abstract record of rationals, since no statement here depends on their
numeric values, only (occasionally) on their signs.
-/

/-- Spin channel, standing in for `pymatgen.Spin` (up/down). -/
inductive Spin where
  | up
  | down
deriving DecidableEq, Repr

/-- A value in the `materials_properties` mapping: either a scalar or a
(valence, conduction) pair, mirroring the scalar-or-tuple convention of the
Python code for deformation potentials. -/
inductive MatValue where
  | scalar (q : ℚ)
  | pair (a b : ℚ)
deriving DecidableEq, Repr

/-- Python exceptions that the embedded code can raise.  `keyError` is what a
dict lookup `materials_properties[p]` raises on a missing key; `typeError`
models tuple-in-arithmetic failures; `missingPropertyError` is the error type
named by the specification's error taxonomy, included so that statements about
it can be expressed (the source never raises it). -/
inductive PyError where
  | keyError (k : String)
  | typeError
  | missingPropertyError (k : String)
deriving DecidableEq, Repr

/-- The `materials_properties` mapping. -/
abbrev Props := String → Option MatValue

/-- Modelled from the spec: the physical/unit constants imported by the module
from `amset.constants`, `BoltzTraP2.units` and `scipy.constants`, which are
code of this repository (or its dependencies) not under `src/`.  They are kept
abstract as rationals; theorems that need it assume they are positive, which
the real values are. -/
structure Consts where
  /-- `np.pi`. -/
  pi : ℚ
  /-- `BoltzTraP2.units.BOLTZMANN` (Boltzmann constant in atomic units). -/
  boltzmann : ℚ
  /-- `BoltzTraP2.units.Second`. -/
  second : ℚ
  /-- `BoltzTraP2.units.eV` (eV → Hartree conversion). -/
  eV : ℚ
  /-- `amset.constants.gpa_to_au`. -/
  gpa_to_au : ℚ
  /-- `amset.constants.e` (elementary charge). -/
  e : ℚ
  /-- `amset.constants.k_B`. -/
  k_B : ℚ
  /-- `amset.constants.hbar`. -/
  hbar : ℚ
  /-- `scipy.constants.epsilon_0`. -/
  epsilon_0 : ℚ

/-- A numpy array over rationals: a shape together with a (row-major
multi-)index function.  The index function is total; only indices that are
valid for the shape are meaningful. -/
structure NDArray where
  shape : List ℕ
  get : List ℕ → ℚ

namespace NDArray

/-- A 1-D array from a list, as produced by supplying a 1-D numpy array. -/
def ofList (qs : List ℚ) : NDArray :=
  ⟨[qs.length], fun idx => qs.getD (idx.getD 0 0) 0⟩

/-- A 2-D array from an index function, as used for arrays indexed by
(doping, temperature). -/
def grid2 (nd nt : ℕ) (f : ℕ → ℕ → ℚ) : NDArray :=
  ⟨[nd, nt], fun idx => f (idx.getD 0 0) (idx.getD 1 0)⟩

/-- `np.ones(s)`. -/
def ones (s : List ℕ) : NDArray :=
  ⟨s, fun _ => 1⟩

/-- `a[None, None]`: insert two leading length-1 axes. -/
def unsqueeze2 (A : NDArray) : NDArray :=
  ⟨1 :: 1 :: A.shape, fun idx => A.get (idx.drop 2)⟩

/-- `a[..., None]`: append a trailing length-1 axis. -/
def unsqueezeLast (A : NDArray) : NDArray :=
  ⟨A.shape ++ [1], fun idx => A.get idx.dropLast⟩

/-- Elementwise map (numpy unary ufunc). -/
def emap (f : ℚ → ℚ) (A : NDArray) : NDArray :=
  ⟨A.shape, fun idx => f (A.get idx)⟩

/-- Map a full multi-index for the broadcast result back to an index into an
operand of shape `shape`: keep only the trailing axes and clamp length-1 axes
to 0 (numpy broadcasting). -/
def bIdx (shape idx : List ℕ) : List ℕ :=
  (shape.zip (idx.drop (idx.length - shape.length))).map
    (fun p => if p.1 = 1 then 0 else p.2)

end NDArray

/-- Combine one pair of dimensions under numpy broadcasting; `none` is a numpy
"operands could not be broadcast together" error. -/
def bcastDim (a b : ℕ) : Option ℕ :=
  if a = b then some a else if a = 1 then some b else if b = 1 then some a else none

/-- Combine two equal-length dimension lists under numpy broadcasting. -/
def bcastDims : List ℕ → List ℕ → Option (List ℕ)
  | [], [] => some []
  | a :: as, b :: bs =>
    match bcastDim a b, bcastDims as bs with
    | some c, some cs => some (c :: cs)
    | _, _ => none
  | _, _ => none

/-- Broadcast two shapes: pad the shorter with leading length-1 axes, then
combine dimensionwise. -/
def bcastShape (s t : List ℕ) : Option (List ℕ) :=
  let r := max s.length t.length
  bcastDims (List.replicate (r - s.length) 1 ++ s) (List.replicate (r - t.length) 1 ++ t)

/-- A binary elementwise numpy operation with broadcasting. -/
def bcastOp (f : ℚ → ℚ → ℚ) (A B : NDArray) : Option NDArray :=
  match bcastShape A.shape B.shape with
  | none => none
  | some s =>
    some ⟨s, fun idx => f (A.get (NDArray.bIdx A.shape idx)) (B.get (NDArray.bIdx B.shape idx))⟩

/-- `np.tile(A, reps)`: the array (promoted with leading length-1 axes to the
rank of `reps` if shorter) repeated `reps[i]` times along axis `i`; an element
of the result is looked up in `A` by reducing each index modulo the promoted
shape. -/
def NDArray.tile (A : NDArray) (reps : List ℕ) : NDArray :=
  let d := max A.shape.length reps.length
  let ps := List.replicate (d - A.shape.length) 1 ++ A.shape
  let rs := List.replicate (d - reps.length) 1 ++ reps
  ⟨(ps.zip rs).map (fun p => p.1 * p.2),
   fun idx => A.get ((((ps.zip idx).map (fun p => p.2 % p.1)).drop (d - A.shape.length)))⟩

/-- Modelled from the spec: the read-only `AmsetData` transport-state snapshot
(`amset.core.data`, not under `src/`).  Per the spec's data model it holds the
doping and temperature sequences, per-spin band energies, Fermi levels and
electron/hole concentrations per (doping, temperature) — so `fermi_levels` has
shape (ndoping, ntemperatures) — a DOS curve, the cell volume, the metallic
flag and the valence-band index per spin.  Arrays indexed by (doping,
temperature) are modelled as total functions of the two indices. -/
structure AmsetData where
  doping : List ℚ
  temperatures : List ℚ
  spins : List Spin
  /-- `energies[s]` is a (bands × kpoints) array; only its leading length
  (the band count) is read by this module. -/
  energies : Spin → List (List ℚ)
  vb_idx : Spin → ℤ
  is_metal : Bool
  fermi_levels : ℕ → ℕ → ℚ
  electron_conc : ℕ → ℕ → ℚ
  hole_conc : ℕ → ℕ → ℚ
  /-- `amset_data.dos.energies`. -/
  dosEnergies : List ℚ
  /-- `amset_data.dos.tdos`. -/
  dosTdos : List ℚ
  /-- `amset_data.structure.volume`. -/
  volume : ℚ

/-- The `fermi_levels` array as an `NDArray` of shape
(ndoping, ntemperatures). -/
def AmsetData.fermiArr (ad : AmsetData) : NDArray :=
  NDArray.grid2 ad.doping.length ad.temperatures.length ad.fermi_levels

/-- Key of the deformation potential property. -/
def kDefPot : String := "deformation_potential"

/-- Key of the elastic constant property. -/
def kElastic : String := "elastic_constant"

/-- Key of the acceptor charge property. -/
def kAcceptorCharge : String := "acceptor_charge"

/-- Key of the donor charge property. -/
def kDonorCharge : String := "donor_charge"

/-- Key of the static dielectric constant property. -/
def kStaticDielectric : String := "static_dielectric"

/-- Key of the piezoelectric coefficient property. -/
def kPiezo : String := "piezoelectric_coefficient"

/-- `AcousticDeformationPotentialScattering.required_properties`. -/
def adp_required_properties : List String := [kDefPot, kElastic]

/-- `IonizedImpurityScattering.required_properties`. -/
def imp_required_properties : List String := [kAcceptorCharge, kDonorCharge, kStaticDielectric]

/-- `PiezoelectricScattering.required_properties`. -/
def pie_required_properties : List String := [kPiezo, kStaticDielectric]

/-- One step of `{p: materials_properties[p] for p in self.required_properties}`:
a dict lookup that raises `KeyError(p)` when the key is absent. -/
def requireProp (mp : Props) (k : String) : Except PyError MatValue :=
  match mp k with
  | some v => Except.ok v
  | none => Except.error (PyError.keyError k)

/-- Use a property value as a number; a tuple in scalar arithmetic raises a
`TypeError` in Python. -/
def MatValue.asScalar : MatValue → Except PyError ℚ
  | MatValue.scalar q => Except.ok q
  | MatValue.pair _ _ => Except.error PyError.typeError

/-- The scalar held by a property value; for a constructed metallic ADP
mechanism the deformation potential is always a scalar, so the pair branch is
unreachable there. -/
def MatValue.scalarValD : MatValue → ℚ
  | MatValue.scalar q => q
  | MatValue.pair a _ => a

/-- Tuple indexing `dp[def_idx]` with `def_idx ∈ {0, 1}`; for a constructed
semiconducting ADP mechanism the deformation potential is always a pair, so
the scalar branch is unreachable there. -/
def MatValue.pairGet : MatValue → ℕ → ℚ
  | MatValue.pair a _, 0 => a
  | MatValue.pair _ b, _ => b
  | MatValue.scalar q, _ => q

/-- `np.trapz(y, x)`: trapezoidal quadrature
`Σ (x[i+1] - x[i]) * (y[i] + y[i+1]) / 2`. -/
def trapz : List ℚ → List ℚ → ℚ
  | y1 :: y2 :: ys, x1 :: x2 :: xs =>
    (x2 - x1) * (y1 + y2) / 2 + trapz (y2 :: ys) (x2 :: xs)
  | _, _ => 0

/-- `calculate_inverse_screening_length_sq(amset_data, static_dielectric)`.
For every (doping `n`, temperature `t`): take the Fermi level, build the
occupations `f = FD(energies, ef, temp * BOLTZMANN)` over the DOS energy grid,
integrate `tdos * f * (1 - f)` by `np.trapz`, and scale by
`4π / (static_dielectric * BOLTZMANN * temp * volume)`.

`fd` is the Fermi–Dirac occupation function `FD` imported from
`BoltzTraP2.fd`, which is code not under `src/`; modelled from the spec as an
abstract occupation function of (energy, Fermi level, kT), assumed where
needed to take values in [0, 1] as a Fermi–Dirac function does. -/
def calculate_inverse_screening_length_sq (c : Consts) (fd : ℚ → ℚ → ℚ → ℚ)
    (ad : AmsetData) (static_dielectric : ℚ) : ℕ → ℕ → ℚ := fun n t =>
  let ef := ad.fermi_levels n t
  let temp := ad.temperatures.getD t 0
  let f := ad.dosEnergies.map (fun en => fd en ef (temp * c.boltzmann))
  let integral := trapz (List.zipWith (fun d fi => d * fi * (1 - fi)) ad.dosTdos f) ad.dosEnergies
  integral * 4 * c.pi / (static_dielectric * c.boltzmann * temp * ad.volume)

/-- `AcousticDeformationPotentialScattering` after `__init__`: the fields of
the abstract base plus the cached `_prefactor` scalar, the (unit-converted)
deformation potential, and a flag recording whether the construction-time
fallback warning was logged. -/
structure ADPScattering where
  doping : List ℚ
  temperatures : List ℚ
  spins : List Spin
  nbands : Spin → ℕ
  vb_idx : Spin → ℤ
  is_metal : Bool
  fermi_levels : NDArray
  _prefactor : ℚ
  deformation_potential : MatValue
  warned : Bool

/-- `AcousticDeformationPotentialScattering.__init__`.  Extracts the required
properties (raising `KeyError` on the first missing one, in the order of
`required_properties`), computes
`_prefactor = BOLTZMANN * Second / (4π² * elastic_constant * gpa_to_au)`, and
applies the metal/semiconductor scalar-vs-pair fallback policy to the
deformation potential, converting to atomic units with `units.eV`.
`logger.warning` is modelled by the `warned` flag. -/
def constructADP (c : Consts) (mp : Props) (ad : AmsetData) :
    Except PyError ADPScattering := do
  let dpv ← requireProp mp kDefPot
  let ecv ← requireProp mp kElastic
  let ec ← ecv.asScalar
  let base : ADPScattering :=
    { doping := ad.doping
      temperatures := ad.temperatures
      spins := ad.spins
      nbands := fun s => (ad.energies s).length
      vb_idx := ad.vb_idx
      is_metal := ad.is_metal
      fermi_levels := ad.fermiArr
      _prefactor := c.boltzmann * c.second / (4 * c.pi ^ 2 * ec * c.gpa_to_au)
      deformation_potential := dpv
      warned := false }
  match ad.is_metal, dpv with
  | true, MatValue.pair a _ =>
    Except.ok { base with deformation_potential := MatValue.scalar (a * c.eV), warned := true }
  | true, MatValue.scalar a =>
    Except.ok { base with deformation_potential := MatValue.scalar (a * c.eV) }
  | false, MatValue.scalar a =>
    Except.ok { base with deformation_potential := MatValue.pair (a * c.eV) (a * c.eV), warned := true }
  | false, MatValue.pair a b =>
    Except.ok { base with deformation_potential := MatValue.pair (a * c.eV) (b * c.eV) }

/-- `AcousticDeformationPotentialScattering.prefactor(spin, b_idx)`: entry
(n, t) of `_prefactor * temperatures[None, :] * np.ones((ndops, ntemps))`
multiplied by the squared deformation potential, selected by band index
relative to `vb_idx[spin]` for semiconductors (the `np.ones` factor fixes the
(ndoping, ntemperature) shape, which the entry function here carries
implicitly). -/
def ADPScattering.prefactor (m : ADPScattering) (spin : Spin) (b_idx : ℤ) :
    ℕ → ℕ → ℚ := fun _n t =>
  let p := m._prefactor * m.temperatures.getD t 0
  if m.is_metal then
    p * m.deformation_potential.scalarValD ^ 2
  else
    p * (m.deformation_potential.pairGet (if b_idx > m.vb_idx spin then 1 else 0)) ^ 2

/-- `AcousticDeformationPotentialScattering.factor(norm_q_sq)`:
`np.ones(self.fermi_levels.shape + norm_q_sq.shape)`. -/
def ADPScattering.factor (m : ADPScattering) (norm_q_sq : NDArray) : NDArray :=
  NDArray.ones (m.fermi_levels.shape ++ norm_q_sq.shape)

/-- `IonizedImpurityScattering` after `__init__`; the reciprocal-lattice
matrix `_rlat` is stored by the source but never read again in this module and
is omitted, and the per-(n, t) diagnostic logging is a side effect outside the
numerical contract. -/
structure IMPScattering where
  doping : List ℚ
  temperatures : List ℚ
  spins : List Spin
  nbands : Spin → ℕ
  inverse_screening_length_sq : ℕ → ℕ → ℚ
  _prefactor : ℕ → ℕ → ℚ

/-- `IonizedImpurityScattering.__init__`: extract the required properties,
compute the inverse screening length squared, the impurity concentration
`|electron_conc| * donor_charge² + |hole_conc| * acceptor_charge²`, and cache
`_prefactor = impurity_concentration * (4π)² * Second / static_dielectric²`. -/
def constructIMP (c : Consts) (fd : ℚ → ℚ → ℚ → ℚ) (mp : Props) (ad : AmsetData) :
    Except PyError IMPScattering := do
  let va ← requireProp mp kAcceptorCharge
  let vd ← requireProp mp kDonorCharge
  let vs ← requireProp mp kStaticDielectric
  let eps ← vs.asScalar
  let za ← va.asScalar
  let zd ← vd.asScalar
  let islsq := calculate_inverse_screening_length_sq c fd ad eps
  let impurity_concentration : ℕ → ℕ → ℚ := fun n t =>
    |ad.electron_conc n t| * zd ^ 2 + |ad.hole_conc n t| * za ^ 2
  Except.ok
    { doping := ad.doping
      temperatures := ad.temperatures
      spins := ad.spins
      nbands := fun s => (ad.energies s).length
      inverse_screening_length_sq := islsq
      _prefactor := fun n t =>
        impurity_concentration n t * (4 * c.pi) ^ 2 * c.second / eps ^ 2 }

/-- `IonizedImpurityScattering.prefactor(spin, b_idx)`: the cached
`_prefactor` array, band- and spin-independent. -/
def IMPScattering.prefactor (m : IMPScattering) (_spin : Spin) (_b_idx : ℤ) :
    ℕ → ℕ → ℚ :=
  m._prefactor

/-- The `inverse_screening_length_sq` array as an `NDArray` of shape
(ndoping, ntemperatures). -/
def IMPScattering.islArr (m : IMPScattering) : NDArray :=
  NDArray.grid2 m.doping.length m.temperatures.length m.inverse_screening_length_sq

/-- `IonizedImpurityScattering.factor(norm_q_sq)`:
`1 / (norm_q_sq[None, None] + inverse_screening_length_sq[..., None]) ** 2`;
`none` is a numpy broadcast error. -/
def IMPScattering.factor (m : IMPScattering) (norm_q_sq : NDArray) : Option NDArray :=
  (bcastOp (· + ·) norm_q_sq.unsqueeze2 m.islArr.unsqueezeLast).map
    (NDArray.emap fun x => 1 / x ^ 2)

/-- `PiezoelectricScattering` after `__init__`. -/
structure PIEScattering where
  doping : List ℚ
  temperatures : List ℚ
  spins : List Spin
  nbands : Spin → ℕ
  _prefactor : ℚ

/-- `PiezoelectricScattering.__init__`: extract the required properties and
cache `_prefactor = (1e9 / e) * e² * k_B * piezoelectric_coefficient²
/ (4π² * hbar * epsilon_0 * static_dielectric)`. -/
def constructPIE (c : Consts) (mp : Props) (ad : AmsetData) :
    Except PyError PIEScattering := do
  let vp ← requireProp mp kPiezo
  let vs ← requireProp mp kStaticDielectric
  let pz ← vp.asScalar
  let eps ← vs.asScalar
  let unit_conversion := 1000000000 / c.e
  Except.ok
    { doping := ad.doping
      temperatures := ad.temperatures
      spins := ad.spins
      nbands := fun s => (ad.energies s).length
      _prefactor := unit_conversion * c.e ^ 2 * c.k_B * pz ^ 2
        / (4 * c.pi ^ 2 * c.hbar * c.epsilon_0 * eps) }

/-- `PiezoelectricScattering.prefactor(spin, b_idx)`: entry (n, t) of
`_prefactor * temperatures[None, :] * np.ones((ndops, ntemps))`, band- and
spin-independent. -/
def PIEScattering.prefactor (m : PIEScattering) (_spin : Spin) (_b_idx : ℤ) :
    ℕ → ℕ → ℚ := fun _n t =>
  m._prefactor * m.temperatures.getD t 0

/-- `PiezoelectricScattering.factor(k_diff_sq)`:
`1 / np.tile(k_diff_sq, (ndops, ntemps, 1))`. -/
def PIEScattering.factor (m : PIEScattering) (k_diff_sq : NDArray) : NDArray :=
  (k_diff_sq.tile [m.doping.length, m.temperatures.length, 1]).emap (fun x => 1 / x)

/-- The first required key missing from a property mapping, in the iteration
order of `required_properties` — the key whose lookup raises. -/
def firstMissingKey (req : List String) (mp : Props) : Option String :=
  req.find? (fun k => (mp k).isNone)

/-- Whether a construction outcome is a `MissingPropertyError`. -/
def raisesMissingProperty {α : Type} : Except PyError α → Bool
  | Except.error (PyError.missingPropertyError _) => true
  | _ => false

/-- The empty string, used as an impossible default key. -/
def emptyKey : String := ""

/-- The first missing required key, defaulting to the empty string when all
required keys are present. -/
def firstMissingKeyD (req : List String) (mp : Props) : String :=
  (firstMissingKey req mp).getD emptyKey

/-- Point update of a property mapping. -/
def setProp (mp : Props) (k : String) (v : MatValue) : Props := fun k' =>
  if k' = k then some v else mp k'

/-! Concrete fixtures for witnesses: an abstract-constant valuation with all
constants positive, a small semiconducting and metallic transport state, a
property mapping holding every property, and a concrete occupation
function. -/

/-- A valuation of the abstract constants; every constant positive. -/
def consts0 : Consts :=
  { pi := 355 / 113
    boltzmann := 2
    second := 3
    eV := 5
    gpa_to_au := 7
    e := 11
    k_B := 13
    hbar := 17
    epsilon_0 := 19 }

/-- A small semiconducting transport state: one doping level, two
temperatures, one spin channel, three bands with `vb_idx = 1`. -/
def adSemi0 : AmsetData :=
  { doping := [-2]
    temperatures := [100, 200]
    spins := [Spin.up]
    energies := fun _ => [[0], [1], [2]]
    vb_idx := fun _ => 1
    is_metal := false
    fermi_levels := fun _ _ => 1 / 2
    electron_conc := fun _ _ => 2
    hole_conc := fun _ _ => -3
    dosEnergies := [0, 1, 2]
    dosTdos := [1, 4, 2]
    volume := 6 }

/-- The same transport state marked metallic. -/
def adMetal0 : AmsetData :=
  { adSemi0 with is_metal := true }

/-- A property mapping holding every property used by the three mechanisms,
with a (valence, conduction) deformation-potential pair. -/
def mpAll0 : Props := fun k =>
  if k = kDefPot then some (MatValue.pair 2 3)
  else if k = kElastic then some (MatValue.scalar 4)
  else if k = kAcceptorCharge then some (MatValue.scalar 1)
  else if k = kDonorCharge then some (MatValue.scalar 2)
  else if k = kStaticDielectric then some (MatValue.scalar 5)
  else if k = kPiezo then some (MatValue.scalar 6)
  else none

/-- `mpAll0` with a scalar deformation potential instead of a pair. -/
def mpScalarDP0 : Props := setProp mpAll0 kDefPot (MatValue.scalar 2)

/-- `mpAll0` with the static dielectric constant doubled (5 → 10). -/
def mpDouble0 : Props := fun k =>
  if k = kStaticDielectric then some (MatValue.scalar (2 * 5)) else mpAll0 k

/-- A property key no mechanism requires. -/
def kHighFreq : String := "high_frequency_dielectric"

/-- `mpAll0` with an extra unrelated key, agreeing with `mpAll0` on every
required property. -/
def mpExtra0 : Props := setProp mpAll0 kHighFreq (MatValue.scalar 23)

/-- The empty property mapping. -/
def mpNone0 : Props := fun _ => none

/-- A constant occupation function with values in [0, 1]. -/
def fdHalf : ℚ → ℚ → ℚ → ℚ := fun _ _ _ => 1 / 2

/-- A 1-D momentum-transfer array of length 3. -/
def q1d0 : NDArray := NDArray.ofList [1, 2, 4]

/-- A rank-2 non-negative momentum-transfer array of shape (3, 4). -/
def q2d0 : NDArray := ⟨[3, 4], fun _ => 1⟩

/-! Helper lemmas about the numpy model. -/

theorem bcastDim_one_left (b : ℕ) : bcastDim 1 b = some b := by
  rcases eq_or_ne 1 b with h | h
  · subst h; simp [bcastDim]
  · simp [bcastDim, h]

theorem bcastDim_one_right (a : ℕ) : bcastDim a 1 = some a := by
  rcases eq_or_ne a 1 with h | h
  · subst h; simp [bcastDim]
  · simp [bcastDim, h]

theorem idx_ite_of_lt {i d : ℕ} (h : i < d) : (if d = 1 then 0 else i) = i := by
  rcases eq_or_ne d 1 with hd | hd
  · subst hd; simp; omega
  · simp [hd]

/-- Shape of `IonizedImpurityScattering.factor` on a 1-D input: broadcasting
`(1, 1, nk)` against `(ndoping, ntemperature, 1)` succeeds and yields
`(ndoping, ntemperature, nk)`. -/
theorem imp_factor_oneD_shape (m : IMPScattering) (qs : List ℚ) :
    (m.factor (NDArray.ofList qs)).map NDArray.shape
      = some [m.doping.length, m.temperatures.length, qs.length] := by
  simp [IMPScattering.factor, bcastOp, bcastShape, NDArray.unsqueeze2,
    NDArray.unsqueezeLast, IMPScattering.islArr, NDArray.grid2, NDArray.ofList,
    bcastDims, bcastDim_one_left, bcastDim_one_right, NDArray.emap]

/-- Entries of `IonizedImpurityScattering.factor` on a 1-D input: the
Brooks–Herring form `1 / (q² + β²)²`. -/
theorem imp_factor_oneD_entry (m : IMPScattering) (qs : List ℚ) (n t k : ℕ)
    (hn : n < m.doping.length) (ht : t < m.temperatures.length)
    (hk : k < qs.length) :
    (m.factor (NDArray.ofList qs)).map (fun F => F.get [n, t, k])
      = some (1 / (qs.getD k 0 + m.inverse_screening_length_sq n t) ^ 2) := by
  simp [IMPScattering.factor, bcastOp, bcastShape, NDArray.unsqueeze2,
    NDArray.unsqueezeLast, IMPScattering.islArr, NDArray.grid2, NDArray.ofList,
    bcastDims, bcastDim_one_left, bcastDim_one_right, NDArray.emap,
    NDArray.bIdx, idx_ite_of_lt hn, idx_ite_of_lt ht, idx_ite_of_lt hk]

/-- Shape of `PiezoelectricScattering.factor` on a 1-D input:
`np.tile(q, (ndoping, ntemperature, 1))` has shape
`(ndoping, ntemperature, nk)`. -/
theorem pie_factor_oneD_shape (m : PIEScattering) (qs : List ℚ) :
    (m.factor (NDArray.ofList qs)).shape
      = [m.doping.length, m.temperatures.length, qs.length] := by
  simp [PIEScattering.factor, NDArray.tile, NDArray.emap, NDArray.ofList,
    List.replicate]

/-- Shape and entries of `IonizedImpurityScattering.factor` on a 1-D input,
combined. -/
theorem imp_factor_oneD (m : IMPScattering) (qs : List ℚ) (n t k : ℕ)
    (hn : n < m.doping.length) (ht : t < m.temperatures.length)
    (hk : k < qs.length) :
    (m.factor (NDArray.ofList qs)).map (fun F => (F.shape, F.get [n, t, k]))
      = some ([m.doping.length, m.temperatures.length, qs.length],
          1 / (qs.getD k 0 + m.inverse_screening_length_sq n t) ^ 2) := by
  simp [IMPScattering.factor, bcastOp, bcastShape, NDArray.unsqueeze2,
    NDArray.unsqueezeLast, IMPScattering.islArr, NDArray.grid2, NDArray.ofList,
    bcastDims, bcastDim_one_left, bcastDim_one_right, NDArray.emap,
    NDArray.bIdx, idx_ite_of_lt hn, idx_ite_of_lt ht, idx_ite_of_lt hk]

/-- C1: for the acoustic deformation potential mechanism on a semiconducting
system constructed with a deformation-potential pair (Dv, Dc), for every spin
in the transport state's spin list and every band index valid for that spin,
`prefactor(spin, band_index)` at every (doping, temperature) entry equals the
base prefactor entry `BOLTZMANN * Second / (4π² * elastic_constant * gpa_to_au)
* T[t]` multiplied by `(Dv * eV)²` when `band_index ≤ vb_idx[spin]` and by
`(Dc * eV)²` when `band_index > vb_idx[spin]`. -/
theorem adp_semiconductor_prefactor_selects_band_potential
    (c : Consts) (mp : Props) (ad : AmsetData) (dv dc ec : ℚ)
    (spin : Spin) (b_idx : ℤ) (n t : ℕ)
    (hsemi : ad.is_metal = false)
    (hdp : mp kDefPot = some (MatValue.pair dv dc))
    (hec : mp kElastic = some (MatValue.scalar ec))
    (hspin : spin ∈ ad.spins)
    (hb : 0 ≤ b_idx ∧ b_idx < ((ad.energies spin).length : ℤ))
    (hn : n < ad.doping.length) (ht : t < ad.temperatures.length) :
    (constructADP c mp ad).map (fun m => m.prefactor spin b_idx n t)
      = Except.ok
          (c.boltzmann * c.second / (4 * c.pi ^ 2 * ec * c.gpa_to_au)
            * ad.temperatures.getD t 0
            * (if b_idx ≤ ad.vb_idx spin then (dv * c.eV) ^ 2 else (dc * c.eV) ^ 2)) := by
  rcases le_or_lt b_idx (ad.vb_idx spin) with h | h
  · simp [constructADP, requireProp, hdp, hec, MatValue.asScalar, hsemi,
      ADPScattering.prefactor, MatValue.pairGet, Except.map, Bind.bind,
      Except.bind, not_lt.mpr h, h]
  · simp [constructADP, requireProp, hdp, hec, MatValue.asScalar, hsemi,
      ADPScattering.prefactor, MatValue.pairGet, Except.map, Bind.bind,
      Except.bind, h, not_le.mpr h]

/-- Witness for C1: the concrete semiconducting fixture, conduction band
(band 2 > vb_idx 1) at doping 0, temperature index 1. -/
theorem adp_semiconductor_prefactor_selects_band_potential_witness :
    (constructADP consts0 mpAll0 adSemi0).map (fun m => m.prefactor Spin.up 2 0 1)
      = Except.ok (consts0.boltzmann * consts0.second
          / (4 * consts0.pi ^ 2 * 4 * consts0.gpa_to_au) * 200
          * (3 * consts0.eV) ^ 2) := by
  have h := adp_semiconductor_prefactor_selects_band_potential consts0 mpAll0
    adSemi0 2 3 4 Spin.up 2 0 1 rfl (by decide) (by decide) (by decide)
    (by decide) (by decide) (by decide)
  simpa using h

/-- C7: for the acoustic deformation potential mechanism, every element of
`factor(q_sq)` equals exactly 1 regardless of the input's values, and the
result has shape (ndoping, ntemperature) + q_sq.shape. -/
theorem adp_factor_constant_one
    (c : Consts) (mp : Props) (ad : AmsetData) (dpv : MatValue) (ec : ℚ)
    (q : NDArray) (idx : List ℕ)
    (hdp : mp kDefPot = some dpv)
    (hec : mp kElastic = some (MatValue.scalar ec)) :
    (constructADP c mp ad).map (fun m => ((m.factor q).shape, (m.factor q).get idx))
      = Except.ok (ad.doping.length :: ad.temperatures.length :: q.shape, 1) := by
  cases dpv <;> cases hm : ad.is_metal <;>
    simp [constructADP, requireProp, hdp, hec, MatValue.asScalar, hm,
      ADPScattering.factor, NDArray.ones, AmsetData.fermiArr, NDArray.grid2,
      Bind.bind, Except.bind, Except.map]

/-- Witness for C7 at the concrete semiconducting fixture with a rank-2
input. -/
theorem adp_factor_constant_one_witness :
    (constructADP consts0 mpAll0 adSemi0).map
        (fun m => ((m.factor q2d0).shape, (m.factor q2d0).get [0, 1, 2, 3]))
      = Except.ok ([1, 2, 3, 4], 1) := by
  have h := adp_factor_constant_one consts0 mpAll0 adSemi0 (MatValue.pair 2 3) 4
    q2d0 [0, 1, 2, 3] (by decide) (by decide)
  simpa [q2d0, adSemi0] using h

/-- C2 (amended): for every mechanism and every non-negative 1-D array `q`,
`factor(q)` has shape (ndoping, ntemperature, nk); the ADP mechanism
additionally satisfies the shape law `(ndoping, ntemperature) + q.shape` for
inputs of any rank.  (As stated — for inputs of any rank for all three
mechanisms — the claim fails: see the counterexample.) -/
theorem factor_shape_one_dim
    (c : Consts) (fd : ℚ → ℚ → ℚ → ℚ) (mp : Props) (ad : AmsetData)
    (dpv : MatValue) (ec za zd eps pz : ℚ) (qs : List ℚ) (q : NDArray)
    (hdp : mp kDefPot = some dpv)
    (hec : mp kElastic = some (MatValue.scalar ec))
    (hza : mp kAcceptorCharge = some (MatValue.scalar za))
    (hzd : mp kDonorCharge = some (MatValue.scalar zd))
    (heps : mp kStaticDielectric = some (MatValue.scalar eps))
    (hpz : mp kPiezo = some (MatValue.scalar pz)) :
    ((constructADP c mp ad).map (fun m => (m.factor q).shape)
        = Except.ok (ad.doping.length :: ad.temperatures.length :: q.shape))
    ∧ ((constructIMP c fd mp ad).map
          (fun m => (m.factor (NDArray.ofList qs)).map NDArray.shape)
        = Except.ok (some [ad.doping.length, ad.temperatures.length, qs.length]))
    ∧ ((constructPIE c mp ad).map (fun m => (m.factor (NDArray.ofList qs)).shape)
        = Except.ok [ad.doping.length, ad.temperatures.length, qs.length]) := by
  refine ⟨?_, ?_, ?_⟩
  · cases dpv <;> cases hm : ad.is_metal <;>
      simp [constructADP, requireProp, hdp, hec, MatValue.asScalar, hm,
        ADPScattering.factor, NDArray.ones, AmsetData.fermiArr, NDArray.grid2,
        Bind.bind, Except.bind, Except.map]
  · simp only [constructIMP, requireProp, hza, hzd, heps, MatValue.asScalar,
      Bind.bind, Except.bind, Except.map]
    exact congrArg Except.ok (imp_factor_oneD_shape _ qs)
  · simp only [constructPIE, requireProp, hpz, heps, MatValue.asScalar,
      Bind.bind, Except.bind, Except.map]
    exact congrArg Except.ok (pie_factor_oneD_shape _ qs)

/-- Counterexample for C2 as stated: on the rank-2 input of shape (3, 4) with
one doping level and two temperatures, the piezoelectric `factor` returns
shape (1, 6, 4) — `np.tile` folds the extra axis into the temperature axis —
instead of the claimed (1, 2) + (3, 4), and the ionized impurity `factor`
fails to broadcast at all. -/
theorem factor_shape_any_rank_counterexample :
    ((constructPIE consts0 mpAll0 adSemi0).map (fun m => (m.factor q2d0).shape)
        = Except.ok [1, 6, 4])
    ∧ [1, 6, 4] ≠ [1, 2] ++ [3, 4]
    ∧ ((constructIMP consts0 fdHalf mpAll0 adSemi0).map (fun m => m.factor q2d0)
        = Except.ok none) := by
  refine ⟨rfl, by decide, rfl⟩

/-- Witness for the amended C2 at the concrete fixtures. -/
theorem factor_shape_one_dim_witness :
    ((constructADP consts0 mpAll0 adSemi0).map (fun m => (m.factor q2d0).shape)
        = Except.ok [1, 2, 3, 4])
    ∧ ((constructIMP consts0 fdHalf mpAll0 adSemi0).map
          (fun m => (m.factor (NDArray.ofList [1, 2, 4])).map NDArray.shape)
        = Except.ok (some [1, 2, 3]))
    ∧ ((constructPIE consts0 mpAll0 adSemi0).map
          (fun m => (m.factor (NDArray.ofList [1, 2, 4])).shape)
        = Except.ok [1, 2, 3]) := by
  have h := factor_shape_one_dim consts0 fdHalf mpAll0 adSemi0
    (MatValue.pair 2 3) 4 1 2 5 6 [1, 2, 4] q2d0 (by decide) (by decide)
    (by decide) (by decide) (by decide) (by decide)
  simpa [adSemi0, q2d0] using h

/-- C3 (amended): for every mechanism, constructing it from a
`materials_properties` mapping that lacks at least one required key fails
immediately at construction — no mechanism instance is produced — by raising
Python's builtin `KeyError` naming the first missing required key (in the
iteration order of `required_properties`), not a `MissingPropertyError`. -/
theorem missing_required_key_fails_construction
    (c : Consts) (fd : ℚ → ℚ → ℚ → ℚ) (mp : Props) (ad : AmsetData)
    (h1 : ∃ k ∈ adp_required_properties, mp k = none)
    (h2 : ∃ k ∈ imp_required_properties, mp k = none)
    (h3 : ∃ k ∈ pie_required_properties, mp k = none) :
    (constructADP c mp ad
        = Except.error (PyError.keyError (firstMissingKeyD adp_required_properties mp)))
    ∧ (constructIMP c fd mp ad
        = Except.error (PyError.keyError (firstMissingKeyD imp_required_properties mp)))
    ∧ (constructPIE c mp ad
        = Except.error (PyError.keyError (firstMissingKeyD pie_required_properties mp))) := by
  refine ⟨?_, ?_, ?_⟩
  · rcases hdp : mp kDefPot with _ | v
    · simp [constructADP, requireProp, hdp, firstMissingKeyD, firstMissingKey,
        adp_required_properties, Bind.bind, Except.bind, List.find?]
    · rcases hec : mp kElastic with _ | w
      · simp [constructADP, requireProp, hdp, hec, firstMissingKeyD,
          firstMissingKey, adp_required_properties, Bind.bind, Except.bind,
          List.find?]
      · exfalso
        rcases h1 with ⟨k, hk, hknone⟩
        simp [adp_required_properties] at hk
        rcases hk with rfl | rfl
        · rw [hdp] at hknone; exact Option.noConfusion hknone
        · rw [hec] at hknone; exact Option.noConfusion hknone
  · rcases ha : mp kAcceptorCharge with _ | va
    · simp [constructIMP, requireProp, ha, firstMissingKeyD, firstMissingKey,
        imp_required_properties, Bind.bind, Except.bind, List.find?]
    · rcases hd : mp kDonorCharge with _ | vd
      · simp [constructIMP, requireProp, ha, hd, firstMissingKeyD,
          firstMissingKey, imp_required_properties, Bind.bind, Except.bind,
          List.find?]
      · rcases hs : mp kStaticDielectric with _ | vs
        · simp [constructIMP, requireProp, ha, hd, hs, firstMissingKeyD,
            firstMissingKey, imp_required_properties, Bind.bind, Except.bind,
            List.find?]
        · exfalso
          rcases h2 with ⟨k, hk, hknone⟩
          simp [imp_required_properties] at hk
          rcases hk with rfl | rfl | rfl
          · rw [ha] at hknone; exact Option.noConfusion hknone
          · rw [hd] at hknone; exact Option.noConfusion hknone
          · rw [hs] at hknone; exact Option.noConfusion hknone
  · rcases hp : mp kPiezo with _ | vp
    · simp [constructPIE, requireProp, hp, firstMissingKeyD, firstMissingKey,
        pie_required_properties, Bind.bind, Except.bind, List.find?]
    · rcases hs : mp kStaticDielectric with _ | vs
      · simp [constructPIE, requireProp, hp, hs, firstMissingKeyD,
          firstMissingKey, pie_required_properties, Bind.bind, Except.bind,
          List.find?]
      · exfalso
        rcases h3 with ⟨k, hk, hknone⟩
        simp [pie_required_properties] at hk
        rcases hk with rfl | rfl
        · rw [hp] at hknone; exact Option.noConfusion hknone
        · rw [hs] at hknone; exact Option.noConfusion hknone

/-- Counterexample for C3 as stated: constructing the ADP mechanism from the
empty property mapping raises `KeyError("deformation_potential")`, not the
`MissingPropertyError` named by the spec's error taxonomy (no such error type
exists in the source). -/
theorem missing_property_error_counterexample :
    raisesMissingProperty (constructADP consts0 mpNone0 adSemi0) = false
    ∧ constructADP consts0 mpNone0 adSemi0
        = Except.error (PyError.keyError kDefPot) :=
  ⟨rfl, rfl⟩

/-- Witness for the amended C3: the empty property mapping fails each
construction with the `KeyError` of its first required key. -/
theorem missing_required_key_fails_construction_witness :
    (constructADP consts0 mpNone0 adSemi0
        = Except.error (PyError.keyError kDefPot))
    ∧ (constructIMP consts0 fdHalf mpNone0 adSemi0
        = Except.error (PyError.keyError kAcceptorCharge))
    ∧ (constructPIE consts0 mpNone0 adSemi0
        = Except.error (PyError.keyError kPiezo)) := by
  have h := missing_required_key_fails_construction consts0 fdHalf mpNone0 adSemi0
    ⟨kDefPot, by decide, rfl⟩ ⟨kAcceptorCharge, by decide, rfl⟩
    ⟨kPiezo, by decide, rfl⟩
  simpa [firstMissingKeyD, firstMissingKey, adp_required_properties,
    imp_required_properties, pie_required_properties, mpNone0, List.find?] using h

/-- C5: the ADP construction fallback policy.  Metallic with a pair: only the
first (valence) value is used, with a warning.  Metallic with a scalar: that
scalar, no warning.  Semiconducting with a scalar: the scalar is duplicated
into both slots with a warning, and apart from the warning flag the
constructed mechanism is identical to the one built from the pair (D, D).
Semiconducting with a pair: used as (valence, conduction).  In every case the
stored values are the supplied ones multiplied by `units.eV`. -/
theorem adp_deformation_potential_fallback_policy
    (c : Consts) (mp : Props) (ad : AmsetData) (dv dc ec : ℚ)
    (hec : mp kElastic = some (MatValue.scalar ec)) :
    (ad.is_metal = true → mp kDefPot = some (MatValue.pair dv dc) →
      (constructADP c mp ad).map (fun m => (m.deformation_potential, m.warned))
        = Except.ok (MatValue.scalar (dv * c.eV), true))
    ∧ (ad.is_metal = true → mp kDefPot = some (MatValue.scalar dv) →
      (constructADP c mp ad).map (fun m => (m.deformation_potential, m.warned))
        = Except.ok (MatValue.scalar (dv * c.eV), false))
    ∧ (ad.is_metal = false → mp kDefPot = some (MatValue.scalar dv) →
      ((constructADP c mp ad).map (fun m => (m.deformation_potential, m.warned))
        = Except.ok (MatValue.pair (dv * c.eV) (dv * c.eV), true))
      ∧ ((constructADP c mp ad).map (fun m => { m with warned := false })
        = constructADP c (setProp mp kDefPot (MatValue.pair dv dv)) ad))
    ∧ (ad.is_metal = false → mp kDefPot = some (MatValue.pair dv dc) →
      (constructADP c mp ad).map (fun m => (m.deformation_potential, m.warned))
        = Except.ok (MatValue.pair (dv * c.eV) (dc * c.eV), false)) := by
  refine ⟨fun hm hdp => ?_, fun hm hdp => ?_, fun hm hdp => ⟨?_, ?_⟩,
    fun hm hdp => ?_⟩
  · simp [constructADP, requireProp, hdp, hec, MatValue.asScalar, hm,
      Bind.bind, Except.bind, Except.map]
  · simp [constructADP, requireProp, hdp, hec, MatValue.asScalar, hm,
      Bind.bind, Except.bind, Except.map]
  · simp [constructADP, requireProp, hdp, hec, MatValue.asScalar, hm,
      Bind.bind, Except.bind, Except.map]
  · simp [constructADP, requireProp, hdp, hec, MatValue.asScalar, hm, setProp,
      show kElastic ≠ kDefPot from by decide, Bind.bind, Except.bind,
      Except.map]
  · simp [constructADP, requireProp, hdp, hec, MatValue.asScalar, hm,
      Bind.bind, Except.bind, Except.map]

/-- Witness for C5: the semiconducting fixture with a scalar deformation
potential (fallback duplication with warning) and the metallic fixture with a
pair (valence value with warning). -/
theorem adp_deformation_potential_fallback_policy_witness :
    ((constructADP consts0 mpScalarDP0 adSemi0).map
        (fun m => (m.deformation_potential, m.warned))
      = Except.ok (MatValue.pair (2 * consts0.eV) (2 * consts0.eV), true))
    ∧ ((constructADP consts0 mpAll0 adMetal0).map
        (fun m => (m.deformation_potential, m.warned))
      = Except.ok (MatValue.scalar (2 * consts0.eV), true)) := by
  have h1 := (adp_deformation_potential_fallback_policy consts0 mpScalarDP0
    adSemi0 2 3 4 (by decide)).2.2.1 rfl (by decide)
  have h2 := (adp_deformation_potential_fallback_policy consts0 mpAll0
    adMetal0 2 3 4 (by decide)).1 rfl (by decide)
  exact ⟨h1.1, h2⟩

/-- C4: for the ionized impurity mechanism and every non-negative 1-D array
`q_sq` of length nk, `factor(q_sq)` is an array of shape
(ndoping, ntemperature, nk) whose entry (n, t, k) is
`1 / (q_sq[k] + inverse_screening_length_sq[n, t])²`. -/
theorem imp_factor_brooks_herring_entries
    (c : Consts) (fd : ℚ → ℚ → ℚ → ℚ) (mp : Props) (ad : AmsetData)
    (za zd eps : ℚ) (qs : List ℚ) (n t k : ℕ)
    (hza : mp kAcceptorCharge = some (MatValue.scalar za))
    (hzd : mp kDonorCharge = some (MatValue.scalar zd))
    (heps : mp kStaticDielectric = some (MatValue.scalar eps))
    (hn : n < ad.doping.length) (ht : t < ad.temperatures.length)
    (hk : k < qs.length) :
    (constructIMP c fd mp ad).map
        (fun m => (m.factor (NDArray.ofList qs)).map (fun F => (F.shape, F.get [n, t, k])))
      = Except.ok (some ([ad.doping.length, ad.temperatures.length, qs.length],
          1 / (qs.getD k 0
            + calculate_inverse_screening_length_sq c fd ad eps n t) ^ 2)) := by
  simp only [constructIMP, requireProp, hza, hzd, heps, MatValue.asScalar,
    Bind.bind, Except.bind, Except.map]
  exact congrArg Except.ok (imp_factor_oneD _ qs n t k hn ht hk)

/-- Witness for C4 at the concrete fixture, entry (0, 1, 2) of a length-3
input. -/
theorem imp_factor_brooks_herring_entries_witness :
    (constructIMP consts0 fdHalf mpAll0 adSemi0).map
        (fun m => (m.factor (NDArray.ofList [1, 2, 4])).map
          (fun F => (F.shape, F.get [0, 1, 2])))
      = Except.ok (some ([1, 2, 3],
          1 / (4 + calculate_inverse_screening_length_sq consts0 fdHalf adSemi0 5 0 1) ^ 2)) := by
  have h := imp_factor_brooks_herring_entries consts0 fdHalf mpAll0 adSemi0
    1 2 5 [1, 2, 4] 0 1 2 (by decide) (by decide) (by decide) (by decide)
    (by decide) (by decide)
  simpa [adSemi0] using h

/-- Trapezoidal quadrature of a pointwise non-negative integrand over an
ascending grid is non-negative. -/
theorem trapz_nonneg (y x : List ℚ) (hy : ∀ a ∈ y, 0 ≤ a)
    (hx : x.Chain' (· ≤ ·)) : 0 ≤ trapz y x := by
  induction y generalizing x with
  | nil => cases x <;> simp [trapz]
  | cons y1 ytl ih =>
    cases ytl with
    | nil =>
      cases x with
      | nil => simp [trapz]
      | cons x1 xtl => cases xtl <;> simp [trapz]
    | cons y2 ys =>
      cases x with
      | nil => simp [trapz]
      | cons x1 xtl =>
        cases xtl with
        | nil => simp [trapz]
        | cons x2 xs =>
          have hx1 := List.chain'_cons.mp hx
          have hterm : 0 ≤ (x2 - x1) * (y1 + y2) / 2 := by
            have h1 : 0 ≤ x2 - x1 := sub_nonneg.mpr hx1.1
            have h2 : 0 ≤ y1 + y2 :=
              add_nonneg (hy y1 (by simp)) (hy y2 (by simp))
            exact div_nonneg (mul_nonneg h1 h2) (by norm_num)
          have hrec := ih (x2 :: xs)
            (fun a ha => hy a (List.mem_cons_of_mem _ ha)) hx1.2
          have hunf : trapz (y1 :: y2 :: ys) (x1 :: x2 :: xs)
              = (x2 - x1) * (y1 + y2) / 2 + trapz (y2 :: ys) (x2 :: xs) := rfl
          rw [hunf]
          exact add_nonneg hterm hrec

/-- Each entry of the screening integrand `tdos * f * (1 - f)` is
non-negative when the DOS entries are non-negative and the occupations lie
in [0, 1]. -/
theorem zipWith_occupation_nonneg (ds fs : List ℚ) (hd : ∀ a ∈ ds, 0 ≤ a)
    (hf : ∀ a ∈ fs, 0 ≤ a ∧ a ≤ 1) :
    ∀ a ∈ List.zipWith (fun d fi => d * fi * (1 - fi)) ds fs, 0 ≤ a := by
  induction ds generalizing fs with
  | nil => simp
  | cons d dtl ih =>
    cases fs with
    | nil => simp
    | cons f ftl =>
      intro a ha
      rw [List.zipWith_cons_cons] at ha
      rcases List.mem_cons.mp ha with rfl | ha
      · have h1 := hd d (by simp)
        have h2 := hf f (by simp)
        exact mul_nonneg (mul_nonneg h1 h2.1) (sub_nonneg.mpr h2.2)
      · exact ih ftl (fun b hb => hd b (by simp [hb]))
          (fun b hb => hf b (by simp [hb])) a ha

/-- C6: every value computed by `calculate_inverse_screening_length_sq` is
non-negative, provided the DOS values are non-negative, the energy grid is
ascending, every temperature is strictly positive, the static dielectric
constant, cell volume, π and the Boltzmann constant are positive, and the
occupation function takes values in [0, 1]. -/
theorem inverse_screening_length_sq_nonneg
    (c : Consts) (fd : ℚ → ℚ → ℚ → ℚ) (ad : AmsetData) (eps : ℚ) (n t : ℕ)
    (htdos : ∀ a ∈ ad.dosTdos, 0 ≤ a)
    (hsorted : ad.dosEnergies.Chain' (· ≤ ·))
    (htemp : ∀ T ∈ ad.temperatures, 0 < T)
    (heps : 0 < eps) (hvol : 0 < ad.volume)
    (hfd : ∀ en mu kt, 0 ≤ fd en mu kt ∧ fd en mu kt ≤ 1)
    (hpi : 0 < c.pi) (hB : 0 < c.boltzmann) :
    0 ≤ calculate_inverse_screening_length_sq c fd ad eps n t := by
  unfold calculate_inverse_screening_length_sq
  have hint : 0 ≤ trapz
      (List.zipWith (fun d fi => d * fi * (1 - fi)) ad.dosTdos
        (ad.dosEnergies.map
          (fun en => fd en (ad.fermi_levels n t) (ad.temperatures.getD t 0 * c.boltzmann))))
      ad.dosEnergies := by
    apply trapz_nonneg _ _ _ hsorted
    apply zipWith_occupation_nonneg _ _ htdos
    intro a ha
    rcases List.mem_map.mp ha with ⟨en, _, rfl⟩
    exact hfd en _ _
  have htnn : 0 ≤ ad.temperatures.getD t 0 := by
    rcases lt_or_ge t ad.temperatures.length with hlt | hge
    · rw [List.getD_eq_getElem _ _ hlt]
      exact (htemp _ (List.getElem_mem hlt)).le
    · rw [List.getD_eq_default _ _ hge]
  exact div_nonneg (mul_nonneg (mul_nonneg hint (by norm_num)) hpi.le)
    (mul_nonneg (mul_nonneg (mul_nonneg heps.le hB.le) htnn) hvol.le)

/-- Witness for C6 at the concrete fixture with occupation 1/2. -/
theorem inverse_screening_length_sq_nonneg_witness :
    0 ≤ calculate_inverse_screening_length_sq consts0 fdHalf adSemi0 5 0 1 := by
  exact inverse_screening_length_sq_nonneg consts0 fdHalf adSemi0 5 0 1
    (by norm_num [adSemi0, List.forall_mem_cons])
    (by norm_num [adSemi0, List.chain'_cons])
    (by norm_num [adSemi0, List.forall_mem_cons])
    (by norm_num) (by norm_num [adSemi0])
    (fun en mu kt => ⟨by norm_num [fdHalf], by norm_num [fdHalf]⟩)
    (by norm_num [consts0]) (by norm_num [consts0])

/-- C8: with the transport state and all other material properties fixed,
doubling `static_dielectric` divides every entry of the cached `_prefactor`
array by exactly 4. -/
theorem imp_prefactor_dielectric_quartic_scaling
    (c : Consts) (fd : ℚ → ℚ → ℚ → ℚ) (mp1 mp2 : Props) (ad : AmsetData)
    (za zd d : ℚ) (n t : ℕ)
    (hza1 : mp1 kAcceptorCharge = some (MatValue.scalar za))
    (hzd1 : mp1 kDonorCharge = some (MatValue.scalar zd))
    (heps1 : mp1 kStaticDielectric = some (MatValue.scalar d))
    (hza2 : mp2 kAcceptorCharge = some (MatValue.scalar za))
    (hzd2 : mp2 kDonorCharge = some (MatValue.scalar zd))
    (heps2 : mp2 kStaticDielectric = some (MatValue.scalar (2 * d)))
    (hd : d ≠ 0) :
    (constructIMP c fd mp2 ad).map (fun m => m._prefactor n t)
      = (constructIMP c fd mp1 ad).map (fun m => m._prefactor n t / 4) := by
  simp only [constructIMP, requireProp, hza1, hzd1, heps1, hza2, hzd2, heps2,
    MatValue.asScalar, Bind.bind, Except.bind, Except.map]
  congr 1
  rw [div_div]
  congr 1
  ring

/-- Witness for C8 at the concrete fixture: dielectric 5 versus 10. -/
theorem imp_prefactor_dielectric_quartic_scaling_witness :
    (constructIMP consts0 fdHalf mpDouble0 adSemi0).map (fun m => m._prefactor 0 1)
      = (constructIMP consts0 fdHalf mpAll0 adSemi0).map
        (fun m => m._prefactor 0 1 / 4) :=
  imp_prefactor_dielectric_quartic_scaling consts0 fdHalf mpAll0 mpDouble0
    adSemi0 1 2 5 0 1 (by decide) (by decide) (by decide) (by decide)
    (by decide) (by norm_num [mpDouble0]) (by norm_num)

/-- C9: the piezoelectric `prefactor` scales linearly with temperature —
for a fixed doping index the ratio of entries at temperature indices t2, t1
equals T2 / T1 — and is independent of spin and band index.  Stated under
the physically valid side conditions that the imported constants are
positive and the piezoelectric coefficient, static dielectric constant and
T1 are non-zero. -/
theorem pie_prefactor_linear_in_temperature
    (c : Consts) (mp : Props) (ad : AmsetData) (pz eps : ℚ)
    (spin spin' : Spin) (b b' : ℤ) (n : ℕ) (t1 t2 : ℕ)
    (hpz : mp kPiezo = some (MatValue.scalar pz))
    (heps : mp kStaticDielectric = some (MatValue.scalar eps))
    (he : 0 < c.e) (hkB : 0 < c.k_B) (hhbar : 0 < c.hbar)
    (heps0 : 0 < c.epsilon_0) (hpi : 0 < c.pi)
    (hpznz : pz ≠ 0) (hepsnz : eps ≠ 0)
    (ht1 : ad.temperatures.getD t1 0 ≠ 0) :
    ((constructPIE c mp ad).map
        (fun m => m.prefactor spin b n t2 / m.prefactor spin b n t1)
      = Except.ok (ad.temperatures.getD t2 0 / ad.temperatures.getD t1 0))
    ∧ ((constructPIE c mp ad).map (fun m => m.prefactor spin b)
      = (constructPIE c mp ad).map (fun m => m.prefactor spin' b')) := by
  have hnum : (1000000000 : ℚ) / c.e * c.e ^ 2 * c.k_B * pz ^ 2 ≠ 0 := by
    have h1 : (1000000000 : ℚ) / c.e ≠ 0 := div_ne_zero (by norm_num) he.ne'
    have h2 : c.e ^ 2 ≠ 0 := pow_ne_zero _ he.ne'
    have h3 : pz ^ 2 ≠ 0 := pow_ne_zero _ hpznz
    exact mul_ne_zero (mul_ne_zero (mul_ne_zero h1 h2) hkB.ne') h3
  have hden : (4 : ℚ) * c.pi ^ 2 * c.hbar * c.epsilon_0 * eps ≠ 0 := by
    have h1 : c.pi ^ 2 ≠ 0 := pow_ne_zero _ hpi.ne'
    exact mul_ne_zero (mul_ne_zero (mul_ne_zero
      (mul_ne_zero (by norm_num) h1) hhbar.ne') heps0.ne') hepsnz
  have hK := div_ne_zero hnum hden
  constructor
  · simp only [constructPIE, requireProp, hpz, heps, MatValue.asScalar,
      Bind.bind, Except.bind, Except.map, PIEScattering.prefactor]
    exact congrArg Except.ok (mul_div_mul_left _ _ hK)
  · rfl

/-- Witness for C9 at the concrete fixture: temperatures 100 and 200, ratio
200/100, and spin/band independence. -/
theorem pie_prefactor_linear_in_temperature_witness :
    ((constructPIE consts0 mpAll0 adSemi0).map
        (fun m => m.prefactor Spin.up 0 0 1 / m.prefactor Spin.up 0 0 0)
      = Except.ok (200 / 100))
    ∧ ((constructPIE consts0 mpAll0 adSemi0).map (fun m => m.prefactor Spin.up 0)
      = (constructPIE consts0 mpAll0 adSemi0).map
        (fun m => m.prefactor Spin.down 5)) := by
  have h := pie_prefactor_linear_in_temperature consts0 mpAll0 adSemi0 6 5
    Spin.up Spin.down 0 5 0 0 1 (by decide) (by decide)
    (by norm_num [consts0]) (by norm_num [consts0]) (by norm_num [consts0])
    (by norm_num [consts0]) (by norm_num [consts0]) (by norm_num)
    (by norm_num) (by norm_num [adSemi0, List.getD])
  simpa [adSemi0] using h

/-- C10: for every mechanism, construction reads only the keys named in its
`required_properties`: two property mappings agreeing on those keys yield
equal constructed mechanisms (hence identical `prefactor` and `factor`
results for every argument), whatever extra keys either holds — extra keys
are silently ignored, never rejected. -/
theorem construction_reads_only_required_properties
    (c : Consts) (fd : ℚ → ℚ → ℚ → ℚ) (mp1 mp2 : Props) (ad : AmsetData) :
    ((∀ k ∈ adp_required_properties, mp1 k = mp2 k) →
        constructADP c mp1 ad = constructADP c mp2 ad)
    ∧ ((∀ k ∈ imp_required_properties, mp1 k = mp2 k) →
        constructIMP c fd mp1 ad = constructIMP c fd mp2 ad)
    ∧ ((∀ k ∈ pie_required_properties, mp1 k = mp2 k) →
        constructPIE c mp1 ad = constructPIE c mp2 ad) := by
  refine ⟨fun h => ?_, fun h => ?_, fun h => ?_⟩
  · have e1 := h kDefPot (by simp [adp_required_properties])
    have e2 := h kElastic (by simp [adp_required_properties])
    simp only [constructADP, requireProp, e1, e2]
  · have e1 := h kAcceptorCharge (by simp [imp_required_properties])
    have e2 := h kDonorCharge (by simp [imp_required_properties])
    have e3 := h kStaticDielectric (by simp [imp_required_properties])
    simp only [constructIMP, requireProp, e1, e2, e3]
  · have e1 := h kPiezo (by simp [pie_required_properties])
    have e2 := h kStaticDielectric (by simp [pie_required_properties])
    simp only [constructPIE, requireProp, e1, e2]

/-- Witness for C10: adding an unrelated extra key changes nothing for any of
the three constructions. -/
theorem construction_reads_only_required_properties_witness :
    (constructADP consts0 mpAll0 adSemi0 = constructADP consts0 mpExtra0 adSemi0)
    ∧ (constructIMP consts0 fdHalf mpAll0 adSemi0
        = constructIMP consts0 fdHalf mpExtra0 adSemi0)
    ∧ (constructPIE consts0 mpAll0 adSemi0
        = constructPIE consts0 mpExtra0 adSemi0) := by
  have h := construction_reads_only_required_properties consts0 fdHalf mpAll0
    mpExtra0 adSemi0
  exact ⟨h.1 (by decide), h.2.1 (by decide), h.2.2 (by decide)⟩
